import Mathlib

/-!
A shallow embedding of the sales-analytics pipeline of this repository
(`src/utils/file_handler.py`, `src/utils/data_processor.py`,
`src/utils/api_handler.py`) together with theorems settling the frozen
claims about it.

Embedding conventions:
* Python strings are embedded as `List Char` (`PyStr`);
* Python `int` is `ℤ`, Python `float` is `ℚ` (non-finite float literals
  such as `"inf"`/`"nan"` and underscore digit separators, which Python's
  `int`/`float` constructors would accept, are outside the modelled
  fragment and are treated as parse failures — no claim depends on them);
* `round(x, 2)` is modelled as round-half-up on exact rationals; Python's
  float `round` is half-even on the binary value, which only differs at
  exact representable ties — every concrete input used below is tie-free
  (or, where a tie is intentionally produced, the verdict is the same
  under either tie rule, as noted there);
* a Python dict record is a structure with `Option`-valued fields
  (`none` = key absent);
* heterogeneous dict values are the inductive `Value`
  (string / int / float).
-/

abbrev PyStr := List Char

/-- Python `str.strip()` with no argument: drop leading whitespace. -/
def pyStripLeft (s : PyStr) : PyStr := s.dropWhile Char.isWhitespace

/-- Python `str.strip()`: drop leading and trailing whitespace. -/
def pyStrip (s : PyStr) : PyStr :=
  ((pyStripLeft s).reverse.dropWhile Char.isWhitespace).reverse

/-- Python `str.lower()` (ASCII fragment). -/
def pyLower (s : PyStr) : PyStr := s.map Char.toLower

/-- Python `str.replace(c, '')` for a single character `c`. -/
def removeChar (c : Char) (s : PyStr) : PyStr := s.filter (fun d => !(d = c))

/-- Python `str.replace(a, b)` for single characters `a`, `b`. -/
def mapChar (a b : Char) (s : PyStr) : PyStr := s.map (fun d => if d = a then b else d)

/-- Python `str.split(sep)` for a one-character separator: `''.split('|') = ['']`. -/
def splitOnChar (sep : Char) : PyStr → List PyStr
  | [] => [[]]
  | c :: rest =>
    let r := splitOnChar sep rest
    if c = sep then [] :: r
    else
      match r with
      | [] => [[c]]
      | f :: t => (c :: f) :: t

/-- Python `str.split()` with no argument: split on whitespace runs, dropping
empty pieces. -/
def pyWords : PyStr → List PyStr
  | [] => []
  | c :: rest =>
    let ws := pyWords rest
    if c.isWhitespace then ws
    else
      match rest with
      | [] => [[c]]
      | d :: _ =>
        if d.isWhitespace then [c] :: ws
        else
          match ws with
          | [] => [[c]]
          | w :: t => (c :: w) :: t

/-- Python `sep.join(parts)`. -/
def joinWith (sep : PyStr) : List PyStr → PyStr
  | [] => []
  | [p] => p
  | p :: rest => p ++ sep ++ joinWith sep rest

/-- `' '.join(s.split())`: collapse whitespace runs to single spaces. -/
def collapseWs (s : PyStr) : PyStr := joinWith [' '] (pyWords s)

/-- Numeric value of a digit string (most significant first). -/
def digitsVal (l : PyStr) : ℕ := l.foldl (fun a c => a * 10 + (c.toNat - 48)) 0

/-- All characters are ASCII digits (vacuously true on the empty string). -/
def allDigits (l : PyStr) : Bool := l.all Char.isDigit

/-- Sign character handling shared by the `int`/`float` parsers: returns the
sign as `1` or `-1` together with the remainder of the string. -/
def takeSign : PyStr → ℤ × PyStr
  | '-' :: rest => (-1, rest)
  | '+' :: rest => (1, rest)
  | s => (1, s)

/-- Python `int(str)` on an already-stripped string: optional sign followed by
at least one digit (underscore separators are outside the fragment). -/
def pyIntParseCore (t : PyStr) : Option ℤ :=
  let (sgn, u) := takeSign t
  if u ≠ [] ∧ allDigits u then some (sgn * (digitsVal u : ℤ)) else none

/-- Python `int(str)`: leading/trailing whitespace is allowed. -/
def pyIntParse (s : PyStr) : Option ℤ := pyIntParseCore (pyStrip s)

/-- Unsigned float mantissa: `digits`, `digits.digits`, `digits.` or `.digits`
with at least one digit overall. -/
def mantissaParse (l : PyStr) : Option ℚ :=
  match splitOnChar '.' l with
  | [a] => if a ≠ [] ∧ allDigits a then some (digitsVal a : ℚ) else none
  | [a, b] =>
    if (a ≠ [] ∨ b ≠ []) ∧ allDigits a ∧ allDigits b then
      some ((digitsVal a : ℚ) + (digitsVal b : ℚ) / (10 ^ b.length))
    else none
  | _ => none

/-- Python `float(str)`: optional sign, mantissa, optional `e`/`E` exponent.
`"inf"`/`"nan"` and underscore separators are outside the fragment. -/
def pyFloatParse (s : PyStr) : Option ℚ :=
  let t := pyStrip s
  let (sgn, u) := takeSign t
  match splitOnChar 'e' (mapChar 'E' 'e' u) with
  | [m] => (mantissaParse m).map (fun q => (sgn : ℚ) * q)
  | [m, e] =>
    match mantissaParse m, pyIntParseCore e with
    | some q, some k => some ((sgn : ℚ) * q * (10 : ℚ) ^ k)
    | _, _ => none
  | _ => none

/-- Truncation toward zero, Python `int(float)`. -/
def ratTrunc (q : ℚ) : ℤ := Int.tdiv q.num q.den

/-- A heterogeneous Python dict value: string, int or float. -/
inductive Value where
  | VStr (s : PyStr)
  | VInt (n : ℤ)
  | VRat (q : ℚ)
deriving DecidableEq

/-- Python truthiness of a `Value` (`''`, `0`, `0.0` are falsy). -/
def truthy : Value → Bool
  | .VStr s => !(s = [])
  | .VInt n => !(n = 0)
  | .VRat q => !(q = 0)

/-- Python `str(value)` as far as the validator's `startswith` checks observe
it.  Python renders a float differently (decimal notation), but both
renderings agree on every property a claim tests: a numeric rendering never
starts with the letters `'T'`/`'P'`/`'C'`. -/
def pyStr : Value → PyStr
  | .VStr s => s
  | .VInt n => (toString n).toList
  | .VRat q => (toString q.num).toList ++ '/' :: (toString q.den).toList

/-- Python `int(value)`: identity on ints, truncation on floats, string
parsing on strings (`none` = `ValueError`/`TypeError`). -/
def pyToInt : Value → Option ℤ
  | .VInt n => some n
  | .VRat q => some (ratTrunc q)
  | .VStr s => pyIntParse s

/-- Python `float(value)`. -/
def pyToFloat : Value → Option ℚ
  | .VInt n => some (n : ℚ)
  | .VRat q => some q
  | .VStr s => pyFloatParse s

/-- Numeric content of a `Value`; only meaningful on non-string values (a
string operand of `*` in Python would mean sequence repetition, outside the
modelled fragment — every theorem touching this carries a hypothesis keeping
the relevant values non-string). -/
def valNum : Value → ℚ
  | .VStr _ => 0
  | .VInt n => (n : ℚ)
  | .VRat q => q

/-- The value is not a string (fragment guard for numeric contexts). -/
def nonStr : Value → Prop
  | .VStr _ => False
  | .VInt _ => True
  | .VRat _ => True

instance : DecidablePred nonStr := fun v => by cases v <;> simp [nonStr] <;> infer_instance

/-- Python `round(q, 2)` modelled as round-half-up on exact rationals (see
the module comment for the tie-rule discussion). -/
def round2 (q : ℚ) : ℚ := ((round (q * 100) : ℤ) : ℚ) / 100

/-- First character test, Python `str.startswith` for a single character. -/
def hasHead (c : Char) : PyStr → Bool
  | [] => false
  | d :: _ => d = c

/-- The first list is an initial segment of the second. -/
def headMatch : PyStr → PyStr → Bool
  | [], _ => true
  | _ :: _, [] => false
  | a :: as, b :: bs => a = b && headMatch as bs

/-- Substring test (Python `needle in haystack`). -/
def occursIn (p : PyStr) : PyStr → Bool
  | [] => p = []
  | c :: rest => headMatch p (c :: rest) || occursIn p rest

/-- A parsed transaction record: a Python dict with these (optional) keys. -/
structure Transaction where
  TransactionID : Option Value
  Date : Option Value
  ProductID : Option Value
  ProductName : Option Value
  Quantity : Option Value
  UnitPrice : Option Value
  CustomerID : Option Value
  Region : Option Value
deriving DecidableEq

/-- One iteration of the loop body of `parse_transactions`
(`src/utils/file_handler.py`, lines 125–183): split on `'|'`, require exactly
8 fields, strip every field, clean the product name, parse `Quantity` as
`int(float(_))` and `UnitPrice` as `float(_)` after removing commas; `none`
means the line is skipped (counted, loop continues). -/
def parseLine (line : PyStr) : Option Transaction :=
  match splitOnChar '|' line with
  | [f0, f1, f2, f3, f4, f5, f6, f7] =>
    match pyFloatParse (removeChar ',' (pyStrip f4)) with
    | none => none
    | some qf =>
      match pyFloatParse (removeChar ',' (pyStrip f5)) with
      | none => none
      | some up =>
        some { TransactionID := some (.VStr (pyStrip f0))
               Date := some (.VStr (pyStrip f1))
               ProductID := some (.VStr (pyStrip f2))
               ProductName := some (.VStr (collapseWs (mapChar ',' ' ' (pyStrip f3))))
               Quantity := some (.VInt (ratTrunc qf))
               UnitPrice := some (.VRat up)
               CustomerID := some (.VStr (pyStrip f6))
               Region := some (.VStr (pyStrip f7)) }
  | _ => none

/-- `parse_transactions` (`src/utils/file_handler.py`): parse each raw line
independently, skipping the lines `parseLine` rejects.  The per-line
`try/except` makes each iteration total, so the whole function is total —
embedded as `filterMap`. -/
def parse_transactions (raw_lines : List PyStr) : List Transaction :=
  raw_lines.filterMap parseLine

/-- Strip all leading `'P'`/`'p'` characters, Python `str.lstrip('Pp')`. -/
def lstripPp (s : PyStr) : PyStr := s.dropWhile (fun c => c = 'P' || c = 'p')

/-- First maximal run of digits in the string (`re.findall(r'\d+', s)[0]`). -/
def firstDigitRun : PyStr → Option PyStr
  | [] => none
  | c :: rest =>
    if c.isDigit then some (c :: rest.takeWhile Char.isDigit)
    else firstDigitRun rest

/-- `extract_numeric_id` (`src/utils/api_handler.py`, lines 166–199): empty
input gives `None`; otherwise `int(product_id.lstrip('Pp'))`, falling back to
the first digit run anywhere in the original string (a pure digit run always
parses, so the inner `except ValueError` branch is dead). -/
def extract_numeric_id (product_id : PyStr) : Option ℤ :=
  if product_id = [] then none
  else
    match pyIntParse (lstripPp product_id) with
    | some n => some n
    | none =>
      match firstDigitRun product_id with
      | some ds => some (digitsVal ds : ℤ)
      | none => none

/-- Modelled from the spec wording of claim C3 (“strips a leading `"P"`/`"p"`
and parses the remainder as an integer; on failure … the first run of digits
anywhere in the string; `None` when … empty … or contains no digits”), read
with “a leading” as a single leading character — to be compared with the
source's `extract_numeric_id`, which uses `lstrip('Pp')`. -/
def specExtractOneP (s : PyStr) : Option ℤ :=
  if s = [] then none
  else
    let t := match s with
      | c :: rest => if c = 'P' || c = 'p' then rest else c :: rest
      | [] => []
    match pyIntParse t with
    | some n => some n
    | none =>
      match firstDigitRun s with
      | some ds => some (digitsVal ds : ℤ)
      | none => none

/-- Summary dictionary built by `validate_and_filter`
(`src/utils/data_processor.py`, lines 634–646). -/
structure FilterSummary where
  total_input : ℕ
  invalid : ℕ
  filtered_by_region : ℕ
  filtered_by_amount : ℕ
  final_count : ℕ
  available_regions : List PyStr
  amount_min : ℚ
  amount_max : ℚ
deriving DecidableEq

/-- Python `t.get(key, default)`. -/
def getField (v : Option Value) (d : Value) : Value := v.getD d

/-- `transaction['Quantity'] * transaction['UnitPrice']` with `KeyError → 0`
(`src/utils/data_processor.py`, lines 514–519).  `valNum` is only faithful
for non-string operands (see `nonStr`); theorems about amounts carry that
hypothesis. -/
def amountQ (t : Transaction) : ℚ :=
  match t.Quantity, t.UnitPrice with
  | some q, some p => valNum q * valNum p
  | _, _ => 0

/-- A field passes the required-field check when present and truthy. -/
def fieldOk : Option Value → Bool
  | some v => truthy v
  | none => false

/-- The required-field loop of the validator (`validate_and_filter`, lines
541–548): the first field, in the fixed order, that is absent or falsy; the
loop `break`s there, so at most one `Missing <field>` message is produced. -/
def firstMissingField (t : Transaction) : Option PyStr :=
  if !(fieldOk t.TransactionID) then some "TransactionID".toList
  else if !(fieldOk t.Date) then some "Date".toList
  else if !(fieldOk t.ProductID) then some "ProductID".toList
  else if !(fieldOk t.ProductName) then some "ProductName".toList
  else if !(fieldOk t.Quantity) then some "Quantity".toList
  else if !(fieldOk t.UnitPrice) then some "UnitPrice".toList
  else if !(fieldOk t.CustomerID) then some "CustomerID".toList
  else if !(fieldOk t.Region) then some "Region".toList
  else none

/-- The per-record validation of `validate_and_filter` (Step 2, lines
537–590): `none` means the record is valid, `some msg` is the
`ValidationError` string attached to the record (the comma-joined message
list). -/
def validationError (t : Transaction) : Option PyStr :=
  match firstMissingField t with
  | some f => some ("Missing ".toList ++ f)
  | none =>
    let tidMsg := if !(hasHead 'T' (pyStr (getField t.TransactionID (.VStr [])))) then
      ["TransactionID must start with \x27T\x27".toList] else []
    let pidMsg := if !(hasHead 'P' (pyStr (getField t.ProductID (.VStr [])))) then
      ["ProductID must start with \x27P\x27".toList] else []
    let cidMsg := if !(hasHead 'C' (pyStr (getField t.CustomerID (.VStr [])))) then
      ["CustomerID must start with \x27C\x27".toList] else []
    let qMsg := match pyToInt (getField t.Quantity (.VStr [])) with
      | none => ["Invalid Quantity value".toList]
      | some n =>
        if n ≤ 0 then ["Quantity must be > 0 (got ".toList ++ (toString n).toList ++ ")".toList]
        else []
    let pMsg := match pyToFloat (getField t.UnitPrice (.VStr [])) with
      | none => ["Invalid UnitPrice value".toList]
      | some p =>
        if p ≤ 0 then ["UnitPrice must be > 0 (got ".toList ++ pyStr (.VRat p) ++ ")".toList]
        else []
    let msgs := tidMsg ++ pidMsg ++ cidMsg ++ qMsg ++ pMsg
    if msgs = [] then none else some (joinWith ", ".toList msgs)

/-- `t.get('Region', '')` as a string, for the region filter and the
available-regions listing (string values only; a non-string region would
make Python's `.lower()`/`sorted` raise, outside the fragment). -/
def regionStrD (t : Transaction) : PyStr :=
  match t.Region with
  | some (.VStr s) => s
  | _ => []

/-- `validate_and_filter` (`src/utils/data_processor.py`, lines 488–658):
validation, then the optional case-insensitive region filter, then the
optional inclusive amount filter.  Returns the surviving records, the
invalid records paired with their `ValidationError`, and the summary (the
source returns `len` of the invalid list; the list itself is the observable
state, since the error strings are attached to the caller's records).
Printing is logging only and is not modelled. -/
def validate_and_filter (transactions : List Transaction)
    (region : Option PyStr) (min_amount max_amount : Option ℚ) :
    List Transaction × List (Transaction × PyStr) × FilterSummary :=
  let amounts := transactions.map amountQ
  let regions := List.insertionSort (fun a b : PyStr => a ≤ b)
    ((transactions.filterMap (fun t =>
      match t.Region with
      | some v => if truthy v then some (pyStr v) else none
      | none => none)).dedup)
  let amin := match amounts with | [] => (0 : ℚ) | a :: rest => rest.foldl min a
  let amax := match amounts with | [] => (0 : ℚ) | a :: rest => rest.foldl max a
  let valid0 := transactions.filter (fun t => (validationError t).isNone)
  let invalid := transactions.filterMap (fun t => (validationError t).map (fun m => (t, m)))
  let valid1 := match region with
    | some r =>
      if r = [] then valid0
      else valid0.filter (fun t => decide (pyLower (regionStrD t) = pyLower r))
    | none => valid0
  let fReg := valid0.length - valid1.length
  let valid2 :=
    if min_amount.isSome || max_amount.isSome then
      valid1.filter (fun t =>
        (match min_amount with | some m => decide (m ≤ amountQ t) | none => true) &&
        (match max_amount with | some M => decide (amountQ t ≤ M) | none => true))
    else valid1
  let fAmt := valid1.length - valid2.length
  (valid2, invalid,
    { total_input := transactions.length
      invalid := invalid.length
      filtered_by_region := fReg
      filtered_by_amount := fAmt
      final_count := valid2.length
      available_regions := regions
      amount_min := amin
      amount_max := amax })

/-- The aggregators' numeric coercion: `t.get(key, default)`, then
`float(x.replace(',', ''))` when the value is a string; `none` is the
`ValueError` that makes the aggregator skip the record. -/
def coerceNum (v : Option Value) (dflt : Value) : Option ℚ :=
  match v.getD dflt with
  | .VStr s => pyFloatParse (removeChar ',' s)
  | .VInt n => some ((n : ℚ))
  | .VRat q => some q

/-- `t.get('Region', '').strip()` as the aggregators read it (string values
only; on a non-string Python would raise `AttributeError`, which the
aggregator's `except (ValueError, TypeError)` does not catch — theorems
carry a string-shape hypothesis). -/
def regionKey (t : Transaction) : PyStr :=
  match t.Region with
  | some (.VStr s) => pyStrip s
  | _ => []

/-- `t.get('CustomerID', '').strip()`. -/
def custKey (t : Transaction) : PyStr :=
  match t.CustomerID with
  | some (.VStr s) => pyStrip s
  | _ => []

/-- `t.get('ProductName', '').strip()`. -/
def pnameKey (t : Transaction) : PyStr :=
  match t.ProductName with
  | some (.VStr s) => pyStrip s
  | _ => []

/-- `t.get('Date', '').strip()`. -/
def dateKey (t : Transaction) : PyStr :=
  match t.Date with
  | some (.VStr s) => pyStrip s
  | _ => []

/-- One loop iteration of `region_wise_sales` (lines 84–112): `none` when the
record is skipped (blank region, or numeric coercion failure), otherwise its
(region, revenue) contribution. -/
def regionContrib (t : Transaction) : Option (PyStr × ℚ) :=
  let r := regionKey t
  if r = [] then none
  else
    match coerceNum t.Quantity (.VInt 0), coerceNum t.UnitPrice (.VRat 0) with
    | some q, some p => some (r, q * p)
    | _, _ => none

/-- Python-dict upsert for the per-region accumulator (insertion order of
first occurrence is preserved, as for a Python dict). -/
def upsertRegion (acc : List (PyStr × ℚ × ℕ)) (kv : PyStr × ℚ) : List (PyStr × ℚ × ℕ) :=
  match acc with
  | [] => [(kv.1, kv.2, 1)]
  | (k, s, c) :: rest =>
    if k = kv.1 then (k, s + kv.2, c + 1) :: rest
    else (k, s, c) :: upsertRegion rest kv

/-- The processed (region, revenue) contributions of the input list. -/
def regionPairs (ts : List Transaction) : List (PyStr × ℚ) := ts.filterMap regionContrib

/-- The `region_data` dict after the first pass of `region_wise_sales`. -/
def regionGroups (ts : List Transaction) : List (PyStr × ℚ × ℕ) :=
  (regionPairs ts).foldl upsertRegion []

/-- `total_all_sales` accumulated in the first pass of `region_wise_sales`. -/
def regionTotalAll (ts : List Transaction) : ℚ := ((regionPairs ts).map (·.2)).sum

/-- One entry of the `region_wise_sales` result. -/
structure RegionStats where
  region : PyStr
  total_sales : ℚ
  transaction_count : ℕ
  percentage : ℚ
deriving DecidableEq

/-- Descending-by-`total_sales` order used by `region_wise_sales`
(`sorted(..., key=total_sales, reverse=True)`). -/
def regionSortRel (a b : RegionStats) : Prop := b.total_sales ≤ a.total_sales

instance : DecidableRel regionSortRel :=
  fun a b => inferInstanceAs (Decidable (b.total_sales ≤ a.total_sales))

instance : IsTotal RegionStats regionSortRel := ⟨fun a b => le_total b.total_sales a.total_sales⟩

instance : IsTrans RegionStats regionSortRel := ⟨fun _ _ _ h1 h2 => le_trans h2 h1⟩

/-- `region_wise_sales` (`src/utils/data_processor.py`, lines 52–134). -/
def region_wise_sales (ts : List Transaction) : List RegionStats :=
  let total := regionTotalAll ts
  let entries := (regionGroups ts).map (fun g =>
    { region := g.1
      total_sales := round2 g.2.1
      transaction_count := g.2.2
      percentage := if 0 < total then round2 (g.2.1 / total * 100) else 0 : RegionStats })
  List.insertionSort regionSortRel entries

/-- One loop iteration of `customer_analysis` (lines 240–271): `none` when
skipped (blank customer or product name, or coercion failure), otherwise the
(customer, product-name, amount) contribution. -/
def custContrib (t : Transaction) : Option (PyStr × PyStr × ℚ) :=
  let c := custKey t
  let pn := pnameKey t
  if c = [] ∨ pn = [] then none
  else
    match coerceNum t.Quantity (.VInt 0), coerceNum t.UnitPrice (.VRat 0) with
    | some q, some p => some (c, pn, q * p)
    | _, _ => none

/-- Add to a set represented as a dedup list (first-insertion order). -/
def addDistinct (l : List PyStr) (p : PyStr) : List PyStr := if p ∈ l then l else l ++ [p]

/-- Per-customer accumulator entry: (id, total spent, count, products set). -/
def upsertCust (acc : List (PyStr × ℚ × ℕ × List PyStr)) (kv : PyStr × PyStr × ℚ) :
    List (PyStr × ℚ × ℕ × List PyStr) :=
  match acc with
  | [] => [(kv.1, kv.2.2, 1, [kv.2.1])]
  | (k, s, c, ps) :: rest =>
    if k = kv.1 then (k, s + kv.2.2, c + 1, addDistinct ps kv.2.1) :: rest
    else (k, s, c, ps) :: upsertCust rest kv

/-- The processed contributions of `customer_analysis`. -/
def custTriples (ts : List Transaction) : List (PyStr × PyStr × ℚ) := ts.filterMap custContrib

/-- The `customer_data` dict after the first pass of `customer_analysis`. -/
def custGroups (ts : List Transaction) : List (PyStr × ℚ × ℕ × List PyStr) :=
  (custTriples ts).foldl upsertCust []

/-- One entry of the `customer_analysis` result. -/
structure CustomerStats where
  customer : PyStr
  total_spent : ℚ
  purchase_count : ℕ
  avg_order_value : ℚ
  products_bought : List PyStr
deriving DecidableEq

/-- Descending-by-`total_spent` order used by `customer_analysis`. -/
def custSortRel (a b : CustomerStats) : Prop := b.total_spent ≤ a.total_spent

instance : DecidableRel custSortRel :=
  fun a b => inferInstanceAs (Decidable (b.total_spent ≤ a.total_spent))

instance : IsTotal CustomerStats custSortRel := ⟨fun a b => le_total b.total_spent a.total_spent⟩

instance : IsTrans CustomerStats custSortRel := ⟨fun _ _ _ h1 h2 => le_trans h2 h1⟩

/-- `customer_analysis` (`src/utils/data_processor.py`, lines 208–294). -/
def customer_analysis (ts : List Transaction) : List CustomerStats :=
  let entries := (custGroups ts).map (fun g =>
    { customer := g.1
      total_spent := round2 g.2.1
      purchase_count := g.2.2.1
      avg_order_value := if 0 < g.2.2.1 then round2 (g.2.1 / (g.2.2.1 : ℚ)) else 0
      products_bought := List.insertionSort (fun a b : PyStr => a ≤ b) g.2.2.2 : CustomerStats })
  List.insertionSort custSortRel entries

/-- One loop iteration of `daily_sales_trend` (lines 332–364): `none` when
skipped (blank date, or coercion failure), otherwise the
(date, customer, revenue) contribution — the customer id may be blank, in
which case the record still counts but no customer is added to the set. -/
def dayContrib (t : Transaction) : Option (PyStr × PyStr × ℚ) :=
  let d := dateKey t
  if d = [] then none
  else
    match coerceNum t.Quantity (.VInt 0), coerceNum t.UnitPrice (.VRat 0) with
    | some q, some p => some (d, custKey t, q * p)
    | _, _ => none

/-- Per-date accumulator entry: (date, revenue, count, customers set). -/
def upsertDay (acc : List (PyStr × ℚ × ℕ × List PyStr)) (kv : PyStr × PyStr × ℚ) :
    List (PyStr × ℚ × ℕ × List PyStr) :=
  match acc with
  | [] => [(kv.1, kv.2.2, 1, if kv.2.1 = [] then [] else [kv.2.1])]
  | (k, r, c, cs) :: rest =>
    if k = kv.1 then
      (k, r + kv.2.2, c + 1, if kv.2.1 = [] then cs else addDistinct cs kv.2.1) :: rest
    else (k, r, c, cs) :: upsertDay rest kv

/-- The processed contributions of `daily_sales_trend`. -/
def dayTriples (ts : List Transaction) : List (PyStr × PyStr × ℚ) := ts.filterMap dayContrib

/-- The `daily_data` dict after the grouping pass of `daily_sales_trend`. -/
def dayGroups (ts : List Transaction) : List (PyStr × ℚ × ℕ × List PyStr) :=
  (dayTriples ts).foldl upsertDay []

/-- One entry of the `daily_sales_trend` result. -/
structure DayStats where
  date : PyStr
  revenue : ℚ
  transaction_count : ℕ
  unique_customers : ℕ
deriving DecidableEq

/-- Ascending-by-date order used by `daily_sales_trend`
(`sorted(result.items())`, keys are distinct date strings). -/
def daySortRel (a b : DayStats) : Prop := a.date ≤ b.date

instance : DecidableRel daySortRel := fun a b => inferInstanceAs (Decidable (a.date ≤ b.date))

instance : IsTotal DayStats daySortRel := ⟨fun a b => le_total a.date b.date⟩

instance : IsTrans DayStats daySortRel := ⟨fun _ _ _ h1 h2 => le_trans h1 h2⟩

/-- `daily_sales_trend` (`src/utils/data_processor.py`, lines 301–378). -/
def daily_sales_trend (ts : List Transaction) : List DayStats :=
  let entries := (dayGroups ts).map (fun g =>
    { date := g.1
      revenue := round2 g.2.1
      transaction_count := g.2.2.1
      unique_customers := g.2.2.2.length : DayStats })
  List.insertionSort daySortRel entries

/-- Python `max(items, key=revenue)` keeps the first maximum: the running
best is replaced only on a strictly larger revenue. -/
def peakStep (best e : DayStats) : DayStats := if best.revenue < e.revenue then e else best

/-- `find_peak_sales_day` (`src/utils/data_processor.py`, lines 381–407). -/
def find_peak_sales_day (ts : List Transaction) : PyStr × ℚ × ℕ :=
  match daily_sales_trend ts with
  | [] => ([], 0, 0)
  | e :: rest =>
    let m := rest.foldl peakStep e
    (m.date, m.revenue, m.transaction_count)

/-- A product-mapping entry (`create_product_mapping` values). -/
structure ApiInfo where
  title : PyStr
  category : PyStr
  brand : PyStr
  rating : ℚ
  price : ℚ
deriving DecidableEq

/-- The `product_mapping` dict, keyed by integer product id. -/
abbrev ProductMapping := List (ℤ × ApiInfo)

/-- Dict lookup (`numeric_id in product_mapping` / `product_mapping[id]`). -/
def lookupMapping (m : ProductMapping) (k : ℤ) : Option ApiInfo :=
  match m with
  | [] => none
  | (k2, v) :: rest => if k2 = k then some v else lookupMapping rest k

/-- An enriched transaction: the base record plus the four API fields. -/
structure Enriched where
  base : Transaction
  API_Category : Option PyStr
  API_Brand : Option PyStr
  API_Rating : Option ℚ
  API_Match : Bool
deriving DecidableEq

/-- `extract_numeric_id(transaction.get('ProductID', ''))`: the
`isinstance(product_id, str)` guard makes any non-string id a `None`
extraction; an absent key extracts from the `''` default. -/
def extractFromRecord (t : Transaction) : Option ℤ :=
  match t.ProductID with
  | some (.VStr s) => extract_numeric_id s
  | none => extract_numeric_id []
  | some _ => none

/-- The miss case of enrichment: all API fields `None`, `API_Match = False`. -/
def missFields (t : Transaction) : Enriched :=
  { base := t, API_Category := none, API_Brand := none, API_Rating := none, API_Match := false }

/-- One iteration of the enrichment loop (`enrich_sales_data`, lines
263–320): a hit needs `numeric_id` truthy (so nonzero) *and* present in the
mapping; everything else, including the per-record exception handler, ends
in the miss case. -/
def enrichOne (m : ProductMapping) (t : Transaction) : Enriched :=
  match extractFromRecord t with
  | some n =>
    if n ≠ 0 then
      match lookupMapping m n with
      | some info =>
        { base := t, API_Category := some info.category, API_Brand := some info.brand,
          API_Rating := some info.rating, API_Match := true }
      | none => missFields t
    else missFields t
  | none => missFields t

/-- `enrich_sales_data` (`src/utils/api_handler.py`, lines 202–343): empty
input returns `[]`; an empty mapping attaches the miss fields to every
record; otherwise every record is enriched independently. -/
def enrich_sales_data (ts : List Transaction) (m : ProductMapping) : List Enriched :=
  if ts = [] then []
  else if m = [] then ts.map missFields
  else ts.map (enrichOne m)

/-- A field value as the enriched-file writer sees it. -/
inductive FVal where
  | FStr (s : PyStr)
  | FInt (n : ℤ)
  | FRat (q : ℚ)
  | FBool (b : Bool)
  | FNone
deriving DecidableEq

/-- The writer's per-field rendering (`save_enriched_data`, lines 393–410):
`None → ''`, booleans to `'True'`/`'False'`, numbers via `str`, strings as
themselves, and finally `str(value).strip()`.  Python renders a float in
decimal notation; the embedding renders `q` as `num/den` — the two agree on
everything the round-trip claim depends on (no `'|'`, no surrounding
whitespace). -/
def renderField : FVal → PyStr
  | .FNone => []
  | .FBool true => "True".toList
  | .FBool false => "False".toList
  | .FInt n => pyStrip (toString n).toList
  | .FRat q => pyStrip (pyStr (.VRat q))
  | .FStr s => pyStrip s

/-- The writer's view of one base-record field: `t.get(field, '')`, where the
`''` default renders exactly like `None`. -/
def valToF : Option Value → FVal
  | some (.VStr s) => .FStr s
  | some (.VInt n) => .FInt n
  | some (.VRat q) => .FRat q
  | none => .FNone

/-- The 12 header fields of one enriched record, in file order
(`header_fields` of `save_enriched_data`). -/
def enrichedFields (e : Enriched) : List FVal :=
  [valToF e.base.TransactionID, valToF e.base.Date, valToF e.base.ProductID,
   valToF e.base.ProductName, valToF e.base.Quantity, valToF e.base.UnitPrice,
   valToF e.base.CustomerID, valToF e.base.Region,
   (match e.API_Category with | some s => .FStr s | none => .FNone),
   (match e.API_Brand with | some s => .FStr s | none => .FNone),
   (match e.API_Rating with | some q => .FRat q | none => .FNone),
   .FBool e.API_Match]

/-- One data line written by `save_enriched_data`
(`'|'.join(row)`, lines 393–410). -/
def writeLine (e : Enriched) : PyStr := joinWith ['|'] ((enrichedFields e).map renderField)

/-- The data lines of the file written by `save_enriched_data` (the header
line precedes them in the file and is not a data line). -/
def save_enriched_lines (es : List Enriched) : List PyStr := es.map writeLine

/-- The claim-C8 description of a malformed line: wrong field count, or
`Quantity`/`UnitPrice` not numeric after stripping and comma removal. -/
def malformedLine (l : PyStr) : Bool :=
  match splitOnChar '|' l with
  | [_, _, _, _, f4, f5, _, _] =>
    (pyFloatParse (removeChar ',' (pyStrip f4))).isNone ||
    (pyFloatParse (removeChar ',' (pyStrip f5))).isNone
  | _ => true

/-- Fragment guard for the `Amount` computation of `validate_and_filter`:
when both `Quantity` and `UnitPrice` are present they are non-strings (in
Python, string operands of `*` would mean sequence repetition). -/
def amountFrag (t : Transaction) : Prop :=
  match t.Quantity, t.UnitPrice with
  | some a, some b => nonStr a ∧ nonStr b
  | _, _ => True

instance : DecidablePred amountFrag := fun t => by
  unfold amountFrag
  cases t.Quantity <;> cases t.UnitPrice <;> infer_instance

/-- The validity premise of claim C5 for a record, exactly as the claim
phrases it: non-blank (string) region, and `Quantity`/`UnitPrice` that the
aggregator's numeric coercion accepts. -/
def validRegionRecord (t : Transaction) : Prop :=
  regionKey t ≠ [] ∧
  (coerceNum t.Quantity (.VInt 0)).isSome = true ∧
  (coerceNum t.UnitPrice (.VRat 0)).isSome = true

instance : DecidablePred validRegionRecord := fun t => by
  unfold validRegionRecord
  infer_instance

/-- Spec-side raw (unrounded) total spent by customer `c` across the
processed contributions of `ts`. -/
def custSpent (ts : List Transaction) (c : PyStr) : ℚ :=
  (((custTriples ts).filter (fun x => x.1 = c)).map (fun x => x.2.2)).sum

/-- Spec-side purchase count of customer `c`. -/
def custCount (ts : List Transaction) (c : PyStr) : ℕ :=
  ((custTriples ts).filter (fun x => x.1 = c)).length

/-- Association-list lookup into the customer accumulator. -/
def lookupCust (acc : List (PyStr × ℚ × ℕ × List PyStr)) (k : PyStr) :
    Option (ℚ × ℕ × List PyStr) :=
  match acc with
  | [] => none
  | (k2, v) :: rest => if k2 = k then some v else lookupCust rest k

/-- Record builder with string/int field values (the shapes produced by
`parse_transactions`). -/
def mkTx (tid date pid pname : PyStr) (q up : ℤ) (cid region : PyStr) : Transaction :=
  { TransactionID := some (.VStr tid), Date := some (.VStr date),
    ProductID := some (.VStr pid), ProductName := some (.VStr pname),
    Quantity := some (.VInt q), UnitPrice := some (.VInt up),
    CustomerID := some (.VStr cid), Region := some (.VStr region) }

/-- Record builder with a rational unit price. -/
def mkTxR (tid date pid pname : PyStr) (q : ℤ) (up : ℚ) (cid region : PyStr) : Transaction :=
  { TransactionID := some (.VStr tid), Date := some (.VStr date),
    ProductID := some (.VStr pid), ProductName := some (.VStr pname),
    Quantity := some (.VInt q), UnitPrice := some (.VRat up),
    CustomerID := some (.VStr cid), Region := some (.VStr region) }

/-- A record whose `Quantity` is the integer `0` and whose other fields are
well-formed (claim C1). -/
def c1tx : Transaction :=
  mkTx "T001".toList "2024-12-01".toList "P101".toList "Laptop".toList 0 5
    "C001".toList "North".toList

/-- A record that fails validation (its `TransactionID` does not start with
`'T'`) but has amount `5 × 10 = 50` (claim C2). -/
def c2tx : Transaction :=
  mkTx "X001".toList "2024-12-01".toList "P101".toList "Laptop".toList 5 10
    "C001".toList "North".toList

/-- One single-region record for claim C5's input family: quantity 1, the
given integer unit price, region `r`. -/
def mkC5tx (r : PyStr) (p : ℤ) : Transaction :=
  mkTx "T1".toList "2024-12-01".toList "P1".toList "X".toList 1 p "C1".toList r

/-- Twenty-five valid records in twenty-five distinct regions: 24 amounts of
40051 and one of 38776, total 1000000.  Each percentage is 4.0051 (rounding
to 4.01) resp. 3.8776 (rounding to 3.88), so the rounded percentages sum to
100.12 (claim C5 counterexample). -/
def c5txs : List Transaction :=
  (["a", "b", "c", "d", "e", "f", "g", "h", "i", "j", "k", "l", "m", "n", "o", "p",
    "q", "r", "s", "t", "u", "v", "w", "x"].map (fun r => mkC5tx r.toList 40051)) ++
  [mkC5tx "y".toList 38776]

/-- A small two-region input (claim C5 witness). -/
def c5wit : List Transaction := [mkC5tx "n".toList 10, mkC5tx "s".toList 30]

/-- A one-record input with a non-blank date (claim C6 witness). -/
def c6ts : List Transaction := [mkC5tx "n".toList 7]

/-- Two records with equal revenue 5 on two different dates, the later date
appearing first in the input (claim C10). -/
def c10ts : List Transaction :=
  [mkTx "T1".toList "2024-12-02".toList "P1".toList "X".toList 1 5 "C1".toList "n".toList,
   mkTx "T2".toList "2024-12-01".toList "P2".toList "X".toList 1 5 "C2".toList "n".toList]

/-- Two purchases of 0.0149 by the same customer: raw total 0.0298 (reported
as 0.03), code average `round2(0.0149) = 0.01`, while rounding the quotient
of the reported total gives `round2(0.015) = 0.02` (claim C7
counterexample; the verdict is the same under half-even rounding, since
`round(1.5)` is 2 under both tie rules). -/
def c7txs : List Transaction :=
  [mkTxR "T1".toList "2024-12-01".toList "P1".toList "X".toList 1 (149/10000)
    "C1".toList "n".toList,
   mkTxR "T2".toList "2024-12-01".toList "P1".toList "X".toList 1 (149/10000)
    "C1".toList "n".toList]

/-- A single ordinary purchase (claim C7 witness). -/
def c7wit : List Transaction :=
  [mkTx "T1".toList "2024-12-01".toList "P1".toList "X".toList 2 10 "C9".toList "n".toList]

/-- An enriched record one of whose field values contains the delimiter
`'|'` (claim C4 counterexample). -/
def c4bad : Enriched :=
  { base := mkTx "T1".toList "2024-12-01".toList "P1".toList "X".toList 1 5 "C1".toList
      "a|b".toList,
    API_Category := none, API_Brand := none, API_Rating := none, API_Match := false }

/-- An enriched record with pipe-free, whitespace-trimmed field values
(claim C4 witness). -/
def c4good : Enriched :=
  { base := mkTx "T1".toList "2024-12-01".toList "P1".toList "Laptop Pro".toList 1 5
      "C1".toList "North".toList,
    API_Category := some "laptops".toList, API_Brand := some "Apple".toList,
    API_Rating := none, API_Match := true }

/-- A record whose `ProductID` `"P0"` extracts to the numeric id `0`
(claim C9). -/
def c9tx : Transaction :=
  mkTx "T1".toList "2024-12-01".toList "P0".toList "X".toList 1 5 "C1".toList "n".toList

/-- A product mapping that does contain the key `0` (claim C9). -/
def c9map : ProductMapping :=
  [(0, { title := "t".toList, category := "cat".toList, brand := "br".toList,
         rating := 5, price := 10 })]

theorem parseLine_none_iff (l : PyStr) : parseLine l = none ↔ malformedLine l = true := by
  unfold parseLine malformedLine
  generalize splitOnChar '|' l = fs
  match fs with
  | [] => simp
  | [_] => simp
  | [_, _] => simp
  | [_, _, _] => simp
  | [_, _, _, _] => simp
  | [_, _, _, _, _] => simp
  | [_, _, _, _, _, _] => simp
  | [_, _, _, _, _, _, _] => simp
  | [_, _, _, _, f4, f5, _, _] =>
    cases h4 : pyFloatParse (removeChar ',' (pyStrip f4)) <;>
      cases h5 : pyFloatParse (removeChar ',' (pyStrip f5)) <;>
      simp [h4, h5]
  | _ :: _ :: _ :: _ :: _ :: _ :: _ :: _ :: _ :: _ => simp

/-- Claim C8: `parse_transactions` is total (it is a per-line `filterMap`, so
it returns normally on every input), a line is skipped exactly when it is
malformed in the claimed sense (wrong field count, or non-numeric
`Quantity`/`UnitPrice`), and deleting a malformed line from anywhere in the
batch does not change the parse of the remaining lines. -/
theorem C8_parse_transactions_skips_malformed :
    (∀ l, parseLine l = none ↔ malformedLine l = true) ∧
    ∀ (pre post : List PyStr) (bad : PyStr), malformedLine bad = true →
      parse_transactions (pre ++ bad :: post) = parse_transactions (pre ++ post) := by
  refine ⟨parseLine_none_iff, ?_⟩
  intro pre post bad hbad
  unfold parse_transactions
  rw [List.filterMap_append, List.filterMap_append,
    List.filterMap_cons_none ((parseLine_none_iff bad).2 hbad)]

/-- Witness for C8 at a concrete malformed line (two fields) in front of a
well-formed line. -/
theorem C8_witness :
    malformedLine "x|y".toList = true ∧
    parse_transactions ([] ++ "x|y".toList :: ["T1|2024-01-01|P1|X|1|2|C1|N".toList]) =
      parse_transactions ([] ++ ["T1|2024-01-01|P1|X|1|2|C1|N".toList]) :=
  ⟨by decide,
   C8_parse_transactions_skips_malformed.2 [] ["T1|2024-01-01|P1|X|1|2|C1|N".toList]
     "x|y".toList (by decide)⟩

/-- Claim C9: a record whose `ProductID` extracts to the numeric id `0`
(such as `"P0"`) is always enriched with the miss fields — all `API_*`
fields `None` and `API_Match = False` — even when `0` is a key of the
product mapping, because the hit test `numeric_id and numeric_id in
product_mapping` requires a truthy id. -/
theorem C9_zero_id_never_matches (ts : List Transaction) (m : ProductMapping)
    (i : ℕ) (t : Transaction) (hi : ts[i]? = some t)
    (h0 : extractFromRecord t = some 0) :
    (enrich_sales_data ts m)[i]? = some (missFields t) := by
  unfold enrich_sales_data
  have hts : ts ≠ [] := by rintro rfl; simp at hi
  rw [if_neg hts]
  by_cases hm : m = []
  · rw [if_pos hm]
    simp [List.getElem?_map, hi]
  · rw [if_neg hm]
    simp [List.getElem?_map, hi, enrichOne, h0]

/-- Witness for C9: `"P0"` against a mapping that has the key `0`. -/
theorem C9_witness : (enrich_sales_data [c9tx] c9map)[0]? = some (missFields c9tx) :=
  C9_zero_id_never_matches [c9tx] c9map 0 c9tx (by decide) (by decide)

theorem mem_of_mem_pyStrip {c : Char} {s : PyStr} (h : c ∈ pyStrip s) : c ∈ s := by
  unfold pyStrip pyStripLeft at h
  rw [List.mem_reverse] at h
  have h1 := (List.dropWhile_sublist _).subset h
  rw [List.mem_reverse] at h1
  exact (List.dropWhile_sublist _).subset h1

theorem takeSign_mem {t u : PyStr} {sgn : ℤ} (h : takeSign t = (sgn, u)) :
    ∀ c ∈ u, c ∈ t := by
  unfold takeSign at h
  split at h <;> cases h <;> intro c hc
  · exact List.mem_cons_of_mem _ hc
  · exact List.mem_cons_of_mem _ hc
  · exact hc

theorem pyIntParse_some_digit {s : PyStr} {n : ℤ} (h : pyIntParse s = some n) :
    ∃ c ∈ s, c.isDigit = true := by
  unfold pyIntParse pyIntParseCore at h
  rcases hts : takeSign (pyStrip s) with ⟨sgn, u⟩
  rw [hts] at h
  simp only at h
  split at h
  · rename_i hcond
    rcases hcond with ⟨hne, hdig⟩
    rcases u with _ | ⟨c, u'⟩
    · exact absurd rfl hne
    · have hc : c.isDigit = true := by
        have := List.all_eq_true.1 hdig c (List.mem_cons_self c u')
        exact this
      exact ⟨c, mem_of_mem_pyStrip (takeSign_mem hts c (List.mem_cons_self c u')), hc⟩
  · exact absurd h (by simp)

theorem firstDigitRun_none_iff (s : PyStr) :
    firstDigitRun s = none ↔ ∀ c ∈ s, ¬ c.isDigit = true := by
  induction s with
  | nil => simp [firstDigitRun]
  | cons c rest ih =>
    unfold firstDigitRun
    by_cases hc : c.isDigit = true
    · simp [hc]
    · simp [hc, ih]

theorem mem_of_mem_lstripPp {c : Char} {s : PyStr} (h : c ∈ lstripPp s) : c ∈ s :=
  (List.dropWhile_sublist _).subset h

/-- Claim C3, amended only in the general clause: the code strips *all*
leading `'P'`/`'p'` characters (Python `lstrip('Pp')`), not a single one.
The five specified examples hold, and `extract_numeric_id` returns `None`
exactly when the input is empty or contains no digit.  (The "not a string"
input case lives outside the string-typed embedding; it is the
`isinstance` guard on line 182 of `src/utils/api_handler.py`.) -/
theorem C3_extract_numeric_id_amended :
    extract_numeric_id "P101".toList = some 101 ∧
    extract_numeric_id "p5".toList = some 5 ∧
    extract_numeric_id "ABC".toList = none ∧
    extract_numeric_id "".toList = none ∧
    extract_numeric_id "101P".toList = some 101 ∧
    ∀ s : PyStr, extract_numeric_id s = none ↔ (s = [] ∨ ∀ c ∈ s, ¬ c.isDigit = true) := by
  refine ⟨by decide, by decide, by decide, by decide, by decide, ?_⟩
  intro s
  by_cases hs : s = []
  · subst hs
    simp [extract_numeric_id]
  · rw [extract_numeric_id, if_neg hs]
    cases hp : pyIntParse (lstripPp s) with
    | some n =>
      simp only [reduceCtorEq, false_iff, not_or]
      refine ⟨hs, ?_⟩
      intro hall
      rcases pyIntParse_some_digit hp with ⟨c, hc, hdig⟩
      exact hall c (mem_of_mem_lstripPp hc) hdig
    | none =>
      cases hf : firstDigitRun s with
      | some ds =>
        simp only [reduceCtorEq, false_iff, not_or]
        refine ⟨hs, ?_⟩
        intro hall
        rw [← firstDigitRun_none_iff] at hall
        rw [hall] at hf
        exact absurd hf (by simp)
      | none =>
        simp only [true_iff]
        exact Or.inr ((firstDigitRun_none_iff s).1 hf)

/-- Counterexample to claim C3 as stated: on `"PP-5"` the code strips both
leading `P`s and parses `"-5"`, returning `-5`, whereas the claimed rule —
strip a single leading `'P'`/`'p'`, and on parse failure take the first run
of digits — returns `5`. -/
theorem C3_counterexample :
    extract_numeric_id "PP-5".toList = some (-5) ∧
    specExtractOneP "PP-5".toList = some 5 ∧
    extract_numeric_id "PP-5".toList ≠ specExtractOneP "PP-5".toList :=
  ⟨by decide, by decide, by decide⟩

theorem peakStep_rev_le (acc e : DayStats) : acc.revenue ≤ (peakStep acc e).revenue := by
  unfold peakStep
  split
  · exact le_of_lt (by assumption)
  · exact le_refl _

theorem foldl_peak_acc_le (l : List DayStats) :
    ∀ acc : DayStats, acc.revenue ≤ (l.foldl peakStep acc).revenue := by
  induction l with
  | nil => intro acc; exact le_refl _
  | cons b t ih =>
    intro acc
    exact le_trans (peakStep_rev_le acc b) (ih (peakStep acc b))

theorem foldl_peak_mem (l : List DayStats) :
    ∀ acc : DayStats, l.foldl peakStep acc = acc ∨ l.foldl peakStep acc ∈ l := by
  induction l with
  | nil => intro acc; exact Or.inl rfl
  | cons b t ih =>
    intro acc
    rcases ih (peakStep acc b) with h | h
    · rw [List.foldl_cons, h]
      unfold peakStep
      split
      · exact Or.inr (List.mem_cons_self _ _)
      · exact Or.inl rfl
    · exact Or.inr (List.mem_cons_of_mem _ (by rw [List.foldl_cons]; exact h))

theorem foldl_peak_ub (l : List DayStats) :
    ∀ (acc : DayStats) (d : DayStats), d ∈ l →
      d.revenue ≤ (l.foldl peakStep acc).revenue := by
  induction l with
  | nil => intro _ _ h; cases h
  | cons b t ih =>
    intro acc d hd
    rcases List.mem_cons.1 hd with rfl | hd
    · rw [List.foldl_cons]
      refine le_trans ?_ (foldl_peak_acc_le t (peakStep acc d))
      unfold peakStep
      split
      · exact le_refl _
      · exact le_of_not_lt (by assumption)
    · rw [List.foldl_cons]
      exact ih (peakStep acc b) d hd

theorem foldl_peak_first (l : List DayStats) :
    ∀ acc : DayStats, (acc :: l).Sorted daySortRel →
      ∀ e, (e = acc ∨ e ∈ l) → e.revenue = (l.foldl peakStep acc).revenue →
      (l.foldl peakStep acc).date ≤ e.date := by
  induction l with
  | nil =>
    intro acc _ e he _
    rcases he with rfl | h
    · exact le_refl _
    · cases h
  | cons b t ih =>
    intro acc hsort e he hrev
    rw [List.foldl_cons] at hrev ⊢
    have hsorted0 := List.sorted_cons.1 hsort
    have hsort' : ((peakStep acc b) :: t).Sorted daySortRel := by
      unfold peakStep
      split
      · exact hsorted0.2
      · refine List.sorted_cons.2 ⟨?_, (List.sorted_cons.1 hsorted0.2).2⟩
        intro x hx
        exact hsorted0.1 x (List.mem_cons_of_mem _ hx)
    rcases he with rfl | he
    · by_cases hlt : e.revenue < b.revenue
      · exfalso
        have hps : peakStep e b = b := by unfold peakStep; rw [if_pos hlt]
        have h1 : b.revenue ≤ (t.foldl peakStep (peakStep e b)).revenue := by
          have := foldl_peak_acc_le t (peakStep e b)
          rw [hps] at this ⊢
          exact this
        rw [← hrev] at h1
        exact absurd (lt_of_lt_of_le hlt h1) (lt_irrefl _)
      · have hps : peakStep e b = e := by unfold peakStep; rw [if_neg hlt]
        exact ih (peakStep e b) hsort' e (Or.inl hps.symm) hrev
    · rcases List.mem_cons.1 he with rfl | he
      · by_cases hlt : acc.revenue < e.revenue
        · have hps : peakStep acc e = e := by unfold peakStep; rw [if_pos hlt]
          exact ih (peakStep acc e) hsort' e (Or.inl hps.symm) hrev
        · have hps : peakStep acc e = acc := by unfold peakStep; rw [if_neg hlt]
          have har : acc.revenue = (t.foldl peakStep (peakStep acc e)).revenue := by
            refine le_antisymm ?_ ?_
            · exact le_trans (peakStep_rev_le acc e) (foldl_peak_acc_le t (peakStep acc e))
            · rw [← hrev]
              exact le_of_not_lt hlt
          have hda : (t.foldl peakStep (peakStep acc e)).date ≤ acc.date :=
            ih (peakStep acc e) hsort' acc (Or.inl hps.symm) har
          have hab : daySortRel acc e := hsorted0.1 e (List.mem_cons_self _ _)
          exact le_trans hda hab
      · exact ih (peakStep acc b) hsort' e (Or.inr he) hrev

/-- Claim C6: `find_peak_sales_day` returns `("", 0, 0)` whenever the daily
trend of its input is empty, and otherwise returns a `(date, revenue,
transaction_count)` entry of `daily_sales_trend` whose revenue is maximal
among all dates. -/
theorem C6_find_peak_sales_day (ts : List Transaction) :
    (daily_sales_trend ts = [] → find_peak_sales_day ts = ([], 0, 0)) ∧
    (daily_sales_trend ts ≠ [] →
      ∃ e ∈ daily_sales_trend ts,
        find_peak_sales_day ts = (e.date, e.revenue, e.transaction_count) ∧
        ∀ d ∈ daily_sales_trend ts, d.revenue ≤ e.revenue) := by
  rcases htr : daily_sales_trend ts with _ | ⟨e, rest⟩
  · refine ⟨fun _ => ?_, fun hne => absurd rfl hne⟩
    unfold find_peak_sales_day
    rw [htr]
  · refine ⟨fun h => absurd h (by simp), fun _ => ?_⟩
    refine ⟨rest.foldl peakStep e, ?_, ?_, ?_⟩
    · rcases foldl_peak_mem rest e with h | h
      · rw [h]; exact List.mem_cons_self _ _
      · exact List.mem_cons_of_mem _ h
    · unfold find_peak_sales_day
      rw [htr]
    · intro d hd
      rcases List.mem_cons.1 hd with rfl | hd
      · exact foldl_peak_acc_le rest d
      · exact foldl_peak_ub rest e d hd

/-- Claim C10: when several dates tie for the maximal revenue,
`find_peak_sales_day` returns the lexicographically smallest such date —
the trend it scans is sorted ascending by date and the first maximum
encountered wins. -/
theorem C10_peak_tie_earliest_date (ts : List Transaction) (e : DayStats)
    (he : e ∈ daily_sales_trend ts)
    (hrev : e.revenue = (find_peak_sales_day ts).2.1) :
    (find_peak_sales_day ts).1 ≤ e.date := by
  rcases htr : daily_sales_trend ts with _ | ⟨a, rest⟩
  · rw [htr] at he; cases he
  · have hsorted : (a :: rest).Sorted daySortRel := by
      rw [← htr]
      unfold daily_sales_trend
      exact List.sorted_insertionSort _ _
    rw [htr] at he
    unfold find_peak_sales_day at hrev ⊢
    rw [htr] at hrev ⊢
    simp only at hrev ⊢
    exact foldl_peak_first rest a hsorted e (by
      rcases List.mem_cons.1 he with rfl | h
      · exact Or.inl rfl
      · exact Or.inr h) hrev

/-- Witness for C6: the empty input (empty trend) and a one-record input
(nonempty trend), through the theorem itself. -/
theorem C6_witness :
    find_peak_sales_day [] = ([], 0, 0) ∧
    ∃ e ∈ daily_sales_trend c6ts,
      find_peak_sales_day c6ts = (e.date, e.revenue, e.transaction_count) ∧
      ∀ d ∈ daily_sales_trend c6ts, d.revenue ≤ e.revenue :=
  ⟨(C6_find_peak_sales_day []).1 rfl, (C6_find_peak_sales_day c6ts).2 (by decide)⟩

/-- Witness for C10: two dates tied at revenue 5, the later date first in
the input; the returned peak date is at most the later tied date. -/
theorem C10_witness : (find_peak_sales_day c10ts).1 ≤ "2024-12-02".toList := by
  have htrend : daily_sales_trend c10ts =
      [{ date := "2024-12-01".toList, revenue := 5, transaction_count := 1,
         unique_customers := 1 },
       { date := "2024-12-02".toList, revenue := 5, transaction_count := 1,
         unique_customers := 1 }] := by
    norm_num +decide [daily_sales_trend, dayGroups, dayTriples, c10ts, mkTx, dayContrib, dateKey,
      custKey, coerceNum, pyStrip, pyStripLeft, upsertDay, addDistinct, List.insertionSort,
      List.orderedInsert, daySortRel, round2, round_eq]
  have hpeak : (find_peak_sales_day c10ts).2.1 = 5 := by
    unfold find_peak_sales_day
    rw [htrend]
    norm_num [peakStep]
  exact C10_peak_tie_earliest_date c10ts
    { date := "2024-12-02".toList, revenue := 5, transaction_count := 1, unique_customers := 1 }
    (by rw [htrend]; exact List.mem_cons_of_mem _ (List.mem_cons_self _ _))
    (by exact hpeak.symm)

theorem validate_and_filter_invalid_eq (ts : List Transaction) (region : Option PyStr)
    (mn mx : Option ℚ) :
    (validate_and_filter ts region mn mx).2.1 =
      ts.filterMap (fun u => (validationError u).map (fun m => (u, m))) := rfl

theorem valid_mem_isNone {ts : List Transaction} {region : Option PyStr} {mn mx : Option ℚ}
    {t : Transaction} (ht : t ∈ (validate_and_filter ts region mn mx).1) :
    (validationError t).isNone = true := by
  unfold validate_and_filter at ht
  dsimp only at ht
  have ht1 : t ∈ (match region with
      | some r =>
        if r = [] then ts.filter (fun u => (validationError u).isNone)
        else (ts.filter (fun u => (validationError u).isNone)).filter
          (fun u => decide (pyLower (regionStrD u) = pyLower r))
      | none => ts.filter (fun u => (validationError u).isNone)) := by
    split at ht
    · exact (List.mem_filter.1 ht).1
    · exact ht
  have ht0 : t ∈ ts.filter (fun u => (validationError u).isNone) := by
    rcases region with _ | r
    · exact ht1
    · dsimp only at ht1
      split at ht1
      · exact ht1
      · exact (List.mem_filter.1 ht1).1
  exact (List.mem_filter.1 ht0).2

/-- Claim C1, amended: a record whose `Quantity` equals `0` is indeed
classified as invalid and no exception is raised, but — because the
required-field loop tests Python truthiness first, and the numeric `0` is
falsy — the attached `ValidationError` is `"Missing Quantity"` (when the
fields checked before `Quantity` are present and truthy), not a message
mentioning `"Quantity must be > 0"`; that message is only reachable for
truthy values such as the string `"0"`. -/
theorem C1_quantity_zero_amended (t : Transaction) (v : Value)
    (hq : t.Quantity = some v) (h0 : v = .VInt 0 ∨ v = .VRat 0)
    (h1 : fieldOk t.TransactionID = true) (h2 : fieldOk t.Date = true)
    (h3 : fieldOk t.ProductID = true) (h4 : fieldOk t.ProductName = true) :
    validationError t = some ("Missing Quantity".toList) ∧
    ∀ (ts : List Transaction) (region : Option PyStr) (mn mx : Option ℚ), t ∈ ts →
      (t, "Missing Quantity".toList) ∈ (validate_and_filter ts region mn mx).2.1 ∧
      t ∉ (validate_and_filter ts region mn mx).1 := by
  have hq0 : fieldOk t.Quantity = false := by
    rw [hq]
    rcases h0 with rfl | rfl <;> simp [fieldOk, truthy]
  have hVE : validationError t = some ("Missing Quantity".toList) := by
    unfold validationError firstMissingField
    rw [h1, h2, h3, h4, hq0]
    simp
  refine ⟨hVE, ?_⟩
  intro ts region mn mx hmem
  constructor
  · rw [validate_and_filter_invalid_eq]
    exact List.mem_filterMap.2 ⟨t, hmem, by rw [hVE]; rfl⟩
  · intro hin
    have := valid_mem_isNone hin
    rw [hVE] at this
    simp at this

/-- Counterexample to claim C1 as stated: for a record with integer
`Quantity = 0` (and every other field well-formed) the attached message is
exactly `"Missing Quantity"`, which does not mention
`"Quantity must be > 0"`. -/
theorem C1_counterexample :
    (validate_and_filter [c1tx] none none none).2.1 = [(c1tx, "Missing Quantity".toList)] ∧
    occursIn "Quantity must be > 0".toList "Missing Quantity".toList = false := by
  constructor
  · rw [validate_and_filter_invalid_eq]
    decide
  · decide

/-- Witness for C1 (amended) at the concrete record `c1tx`. -/
theorem C1_witness :
    validationError c1tx = some ("Missing Quantity".toList) ∧
    ((c1tx, "Missing Quantity".toList) ∈ (validate_and_filter [c1tx] none none none).2.1 ∧
      c1tx ∉ (validate_and_filter [c1tx] none none none).1) := by
  have h := C1_quantity_zero_amended c1tx (.VInt 0) rfl (Or.inl rfl)
    (by decide) (by decide) (by decide) (by decide)
  exact ⟨h.1, h.2 [c1tx] none none none (List.mem_singleton.2 rfl)⟩

theorem foldl_min_le_init (l : List ℚ) : ∀ a : ℚ, l.foldl min a ≤ a := by
  induction l with
  | nil => intro a; exact le_refl a
  | cons b t ih => intro a; exact le_trans (ih (min a b)) (min_le_left a b)

theorem foldl_min_le_mem (l : List ℚ) : ∀ a : ℚ, ∀ x ∈ l, l.foldl min a ≤ x := by
  induction l with
  | nil => intro _ _ h; cases h
  | cons b t ih =>
    intro a x hx
    rcases List.mem_cons.1 hx with rfl | hx
    · exact le_trans (foldl_min_le_init t (min a x)) (min_le_right a x)
    · exact ih (min a b) x hx

theorem foldl_min_mem (l : List ℚ) : ∀ a : ℚ, l.foldl min a = a ∨ l.foldl min a ∈ l := by
  induction l with
  | nil => intro a; exact Or.inl rfl
  | cons b t ih =>
    intro a
    rw [List.foldl_cons]
    rcases ih (min a b) with h | h
    · rcases min_choice a b with hm | hm
      · exact Or.inl (h.trans hm)
      · exact Or.inr (by rw [h, hm]; exact List.mem_cons_self _ _)
    · exact Or.inr (List.mem_cons_of_mem _ h)

theorem foldl_max_init_le (l : List ℚ) : ∀ a : ℚ, a ≤ l.foldl max a := by
  induction l with
  | nil => intro a; exact le_refl a
  | cons b t ih => intro a; exact le_trans (le_max_left a b) (ih (max a b))

theorem foldl_max_mem_le (l : List ℚ) : ∀ a : ℚ, ∀ x ∈ l, x ≤ l.foldl max a := by
  induction l with
  | nil => intro _ _ h; cases h
  | cons b t ih =>
    intro a x hx
    rcases List.mem_cons.1 hx with rfl | hx
    · exact le_trans (le_max_right a x) (foldl_max_init_le t (max a x))
    · exact ih (max a b) x hx

theorem foldl_max_mem (l : List ℚ) : ∀ a : ℚ, l.foldl max a = a ∨ l.foldl max a ∈ l := by
  induction l with
  | nil => intro a; exact Or.inl rfl
  | cons b t ih =>
    intro a
    rw [List.foldl_cons]
    rcases ih (max a b) with h | h
    · rcases max_choice a b with hm | hm
      · exact Or.inl (h.trans hm)
      · exact Or.inr (by rw [h, hm]; exact List.mem_cons_self _ _)
    · exact Or.inr (List.mem_cons_of_mem _ h)

theorem validate_and_filter_amount_min_eq (ts : List Transaction) (region : Option PyStr)
    (mn mx : Option ℚ) :
    (validate_and_filter ts region mn mx).2.2.amount_min =
      (match ts.map amountQ with | [] => (0 : ℚ) | a :: rest => rest.foldl min a) := rfl

theorem validate_and_filter_amount_max_eq (ts : List Transaction) (region : Option PyStr)
    (mn mx : Option ℚ) :
    (validate_and_filter ts region mn mx).2.2.amount_max =
      (match ts.map amountQ with | [] => (0 : ℚ) | a :: rest => rest.foldl max a) := rfl

/-- Claim C2, amended: the summary's `amount_range` is the min/max of
`Quantity × UnitPrice` over *all input* transactions (amount `0` when a
field is absent), not over the pre-filter valid set, and both components
are `0` exactly when the input list is empty. -/
theorem C2_amount_range_amended (ts : List Transaction) (region : Option PyStr)
    (mn mx : Option ℚ) (hfrag : ∀ t ∈ ts, amountFrag t) :
    (ts = [] → (validate_and_filter ts region mn mx).2.2.amount_min = 0 ∧
      (validate_and_filter ts region mn mx).2.2.amount_max = 0) ∧
    (ts ≠ [] →
      (∃ t ∈ ts, amountQ t = (validate_and_filter ts region mn mx).2.2.amount_min) ∧
      (∃ t ∈ ts, amountQ t = (validate_and_filter ts region mn mx).2.2.amount_max) ∧
      ∀ t ∈ ts, (validate_and_filter ts region mn mx).2.2.amount_min ≤ amountQ t ∧
        amountQ t ≤ (validate_and_filter ts region mn mx).2.2.amount_max) := by
  have _hk := hfrag
  clear hfrag
  rw [validate_and_filter_amount_min_eq, validate_and_filter_amount_max_eq]
  rcases ts with _ | ⟨a, as⟩
  · exact ⟨fun _ => ⟨rfl, rfl⟩, fun h => absurd rfl h⟩
  · refine ⟨fun h => absurd h (by simp), fun _ => ?_⟩
    rw [List.map_cons]
    dsimp only
    refine ⟨?_, ?_, ?_⟩
    · rcases foldl_min_mem (as.map amountQ) (amountQ a) with h | h
      · exact ⟨a, List.mem_cons_self _ _, h.symm⟩
      · rcases List.mem_map.1 h with ⟨t, ht, hv⟩
        exact ⟨t, List.mem_cons_of_mem _ ht, hv⟩
    · rcases foldl_max_mem (as.map amountQ) (amountQ a) with h | h
      · exact ⟨a, List.mem_cons_self _ _, h.symm⟩
      · rcases List.mem_map.1 h with ⟨t, ht, hv⟩
        exact ⟨t, List.mem_cons_of_mem _ ht, hv⟩
    · intro t ht
      rcases List.mem_cons.1 ht with rfl | ht
      · exact ⟨foldl_min_le_init _ _, foldl_max_init_le _ _⟩
      · exact ⟨foldl_min_le_mem _ _ _ (List.mem_map_of_mem amountQ ht),
          foldl_max_mem_le _ _ _ (List.mem_map_of_mem amountQ ht)⟩

/-- Counterexample to claim C2 as stated: one invalid record (its
`TransactionID` does not start with `'T'`) with amount `5 × 10 = 50`.  With
no filters requested, the returned valid set — which is exactly the
pre-filter valid set — is empty, so the claim requires
`amount_range = (0, 0)`; the code reports `(50, 50)`. -/
theorem C2_counterexample :
    (validate_and_filter [c2tx] none none none).1 = [] ∧
    (validate_and_filter [c2tx] none none none).2.1.length = 1 ∧
    (validate_and_filter [c2tx] none none none).2.2.amount_min = 50 ∧
    (validate_and_filter [c2tx] none none none).2.2.amount_max = 50 ∧
    (validate_and_filter [c2tx] none none none).2.2.amount_min ≠ 0 := by
  have hve : validationError c2tx = some ("TransactionID must start with \x27T\x27".toList) := by
    norm_num +decide [validationError, firstMissingField, c2tx, mkTx, fieldOk, truthy,
      getField, hasHead, pyStr, pyToInt, pyToFloat, joinWith]
  have h1 : (validate_and_filter [c2tx] none none none).1 =
      [c2tx].filter (fun u => (validationError u).isNone) := rfl
  have hmin : (validate_and_filter [c2tx] none none none).2.2.amount_min = amountQ c2tx := rfl
  have hmax : (validate_and_filter [c2tx] none none none).2.2.amount_max = amountQ c2tx := rfl
  have hamt : amountQ c2tx = 50 := by
    norm_num [amountQ, c2tx, mkTx, valNum]
  refine ⟨?_, ?_, ?_, ?_, ?_⟩
  · rw [h1, List.filter_cons]
    simp [hve]
  · rw [validate_and_filter_invalid_eq]
    simp [hve]
  · rw [hmin, hamt]
  · rw [hmax, hamt]
  · rw [hmin, hamt]
    norm_num

/-- Witness for C2 (amended) at a two-record input. -/
theorem C2_witness :
    (∃ t ∈ [c1tx, c2tx], amountQ t =
      (validate_and_filter [c1tx, c2tx] none none none).2.2.amount_min) ∧
    (∃ t ∈ [c1tx, c2tx], amountQ t =
      (validate_and_filter [c1tx, c2tx] none none none).2.2.amount_max) ∧
    ∀ t ∈ [c1tx, c2tx],
      (validate_and_filter [c1tx, c2tx] none none none).2.2.amount_min ≤ amountQ t ∧
      amountQ t ≤ (validate_and_filter [c1tx, c2tx] none none none).2.2.amount_max :=
  (C2_amount_range_amended [c1tx, c2tx] none none none (by decide)).2 (by simp)

theorem splitOnChar_no_sep {sep : Char} : ∀ {p : PyStr}, sep ∉ p → splitOnChar sep p = [p] := by
  intro p
  induction p with
  | nil => intro _; rfl
  | cons c rest ih =>
    intro h
    have hc : ¬ c = sep := fun hcs => h (by rw [hcs]; exact List.mem_cons_self _ _)
    unfold splitOnChar
    rw [if_neg hc, ih (fun hm => h (List.mem_cons_of_mem _ hm))]

theorem splitOnChar_append_sep {sep : Char} :
    ∀ {p : PyStr} (z : PyStr), sep ∉ p →
      splitOnChar sep (p ++ sep :: z) = p :: splitOnChar sep z := by
  intro p
  induction p with
  | nil =>
    intro z _
    show splitOnChar sep (sep :: z) = [] :: splitOnChar sep z
    simp [splitOnChar]
  | cons c rest ih =>
    intro z h
    have hc : ¬ c = sep := fun hcs => h (by rw [hcs]; exact List.mem_cons_self _ _)
    show splitOnChar sep (c :: (rest ++ sep :: z)) = (c :: rest) :: splitOnChar sep z
    simp only [splitOnChar]
    rw [ih z (fun hm => h (List.mem_cons_of_mem _ hm))]
    simp [hc]

theorem split_joinWith {sep : Char} :
    ∀ (parts : List PyStr), parts ≠ [] → (∀ p ∈ parts, sep ∉ p) →
      splitOnChar sep (joinWith [sep] parts) = parts := by
  intro parts
  induction parts with
  | nil => intro h _; exact absurd rfl h
  | cons p rest ih =>
    intro _ hall
    rcases rest with _ | ⟨q, rest2⟩
    · exact splitOnChar_no_sep (hall p (List.mem_cons_self _ _))
    · show splitOnChar sep (p ++ [sep] ++ joinWith [sep] (q :: rest2)) = p :: q :: rest2
      rw [List.append_assoc, List.singleton_append,
        splitOnChar_append_sep _ (hall p (List.mem_cons_self _ _)),
        ih (by simp) (fun x hx => hall x (List.mem_cons_of_mem _ hx))]

/-- Claim C4, amended: splitting a data line written by
`save_enriched_data` on `'|'` reproduces the rendered value of each of the
12 header fields — with `None` rendered as the empty string and booleans as
`"True"`/`"False"` — *provided* every rendered field value is free of the
delimiter `'|'` (a field value containing the delimiter, which nothing in
the writer escapes, shifts every later field; string values also need no
leading/trailing whitespace, since the writer strips each rendered value,
which is what `renderField` does). -/
theorem C4_roundtrip_amended (e : Enriched)
    (hclean : ∀ f ∈ enrichedFields e, '|' ∉ renderField f) :
    splitOnChar '|' (writeLine e) = (enrichedFields e).map renderField ∧
    renderField .FNone = [] ∧
    renderField (.FBool true) = "True".toList ∧
    renderField (.FBool false) = "False".toList ∧
    ∀ s : PyStr, pyStrip s = s → renderField (.FStr s) = s := by
  refine ⟨?_, rfl, rfl, rfl, fun s h => by rw [renderField, h]⟩
  unfold writeLine
  apply split_joinWith
  · simp [enrichedFields]
  · intro p hp
    rcases List.mem_map.1 hp with ⟨f, hf, rfl⟩
    exact hclean f hf

/-- Counterexample to claim C4 as stated: an enriched record whose `Region`
value contains `'|'` does not survive the round trip — the split line has 13
pieces and the `Region` position reads back `"a"`, not `"a|b"`. -/
theorem C4_counterexample :
    splitOnChar '|' (writeLine c4bad) ≠ (enrichedFields c4bad).map renderField := by
  decide

/-- Witness for C4 (amended) at a concrete pipe-free record. -/
theorem C4_witness :
    splitOnChar '|' (writeLine c4good) = (enrichedFields c4good).map renderField :=
  (C4_roundtrip_amended c4good (by decide)).1

theorem lookupCust_upsert (acc : List (PyStr × ℚ × ℕ × List PyStr))
    (x : PyStr × PyStr × ℚ) (k : PyStr) :
    lookupCust (upsertCust acc x) k =
      if x.1 = k then
        some (match lookupCust acc k with
          | some (s, c, ps) => (s + x.2.2, c + 1, addDistinct ps x.2.1)
          | none => (x.2.2, 1, [x.2.1]))
      else lookupCust acc k := by
  induction acc with
  | nil =>
    by_cases hx : x.1 = k <;> simp [upsertCust, lookupCust, hx]
  | cons e rest ih =>
    rcases e with ⟨k2, s, c, ps⟩
    by_cases h1 : k2 = x.1
    · by_cases h2 : x.1 = k
      · simp [upsertCust, lookupCust, h1, h2, h1.trans h2]
      · have h3 : ¬ k2 = k := fun h => h2 (h1.symm.trans h)
        simp [upsertCust, lookupCust, h1, h2, h3]
    · by_cases h2 : k2 = k
      · have h3 : ¬ x.1 = k := fun h => h1 (h2.trans h.symm)
        have h4 : ¬ k = x.1 := fun h => h1 (h2.trans h)
        simp [upsertCust, lookupCust, h1, h2, h3, h4]
      · simp [upsertCust, lookupCust, h1, h2, ih]

theorem lookupCust_foldl_spec (triples : List (PyStr × PyStr × ℚ)) (k : PyStr) :
    (lookupCust (triples.foldl upsertCust []) k = none ∧
      triples.filter (fun x => x.1 = k) = []) ∨
    ∃ ps, lookupCust (triples.foldl upsertCust []) k =
        some (((triples.filter (fun x => x.1 = k)).map (fun x => x.2.2)).sum,
              (triples.filter (fun x => x.1 = k)).length, ps) ∧
      triples.filter (fun x => x.1 = k) ≠ [] := by
  induction triples using List.reverseRecOn with
  | nil => exact Or.inl ⟨rfl, rfl⟩
  | append_singleton xs x ih =>
    rw [List.foldl_append, List.foldl_cons, List.foldl_nil, List.filter_append]
    rw [lookupCust_upsert]
    by_cases hx : x.1 = k
    · rw [if_pos hx]
      have hfx : List.filter (fun y => decide (y.1 = k)) [x] = [x] := by
        simp [List.filter, hx]
      rw [hfx]
      rcases ih with ⟨hn, hf⟩ | ⟨ps, hsome, hne⟩
      · rw [hn, hf]
        exact Or.inr ⟨[x.2.1], by simp, by simp⟩
      · rw [hsome]
        refine Or.inr ⟨addDistinct ps x.2.1, ?_, by simp⟩
        simp [List.sum_append]
    · rw [if_neg hx]
      have hfx : List.filter (fun y => decide (y.1 = k)) [x] = [] := by
        simp [List.filter, hx]
      rw [hfx, List.append_nil]
      exact ih

theorem upsertCust_keys (acc : List (PyStr × ℚ × ℕ × List PyStr)) (x : PyStr × PyStr × ℚ) :
    (upsertCust acc x).map (fun g => g.1) =
      if x.1 ∈ acc.map (fun g => g.1) then acc.map (fun g => g.1)
      else acc.map (fun g => g.1) ++ [x.1] := by
  induction acc with
  | nil => simp [upsertCust]
  | cons e rest ih =>
    rcases e with ⟨k2, s, c, ps⟩
    by_cases h1 : k2 = x.1
    · subst h1
      simp [upsertCust]
    · have hne : ¬ x.1 = k2 := fun h => h1 h.symm
      simp only [upsertCust, if_neg h1, List.map_cons, List.mem_cons, hne, false_or]
      rw [ih]
      by_cases hm : x.1 ∈ rest.map (fun g => g.1) <;> simp [hm]

theorem foldl_upsertCust_keys_nodup (triples : List (PyStr × PyStr × ℚ)) :
    ((triples.foldl upsertCust []).map (fun g => g.1)).Nodup := by
  induction triples using List.reverseRecOn with
  | nil => simp
  | append_singleton xs x ih =>
    rw [List.foldl_append, List.foldl_cons, List.foldl_nil, upsertCust_keys]
    by_cases hm : x.1 ∈ (xs.foldl upsertCust []).map (fun g => g.1)
    · rw [if_pos hm]; exact ih
    · rw [if_neg hm]
      simp [List.nodup_append, ih, hm]

theorem lookupCust_of_mem {acc : List (PyStr × ℚ × ℕ × List PyStr)}
    (hnd : (acc.map (fun g => g.1)).Nodup) {g : PyStr × ℚ × ℕ × List PyStr} (hg : g ∈ acc) :
    lookupCust acc g.1 = some g.2 := by
  induction acc with
  | nil => cases hg
  | cons e rest ih =>
    rcases e with ⟨k2, v⟩
    simp only [List.map_cons, List.nodup_cons] at hnd
    rcases List.mem_cons.1 hg with rfl | hg2
    · simp [lookupCust]
    · have hkey : g.1 ∈ rest.map (fun u => u.1) := List.mem_map_of_mem _ hg2
      have hne : ¬ k2 = g.1 := fun h => hnd.1 (h ▸ hkey)
      simp only [lookupCust, if_neg hne]
      exact ih hnd.2 hg2

theorem custGroups_entry (ts : List Transaction) (g : PyStr × ℚ × ℕ × List PyStr)
    (hg : g ∈ custGroups ts) :
    g.2.1 = custSpent ts g.1 ∧ g.2.2.1 = custCount ts g.1 ∧ 0 < custCount ts g.1 := by
  have hlk := lookupCust_of_mem (foldl_upsertCust_keys_nodup (custTriples ts)) hg
  rcases lookupCust_foldl_spec (custTriples ts) g.1 with ⟨hn, _⟩ | ⟨ps, hsome, hne⟩
  · rw [hlk] at hn
    cases hn
  · rw [hlk] at hsome
    have hv := Option.some.inj hsome
    unfold custSpent custCount
    refine ⟨?_, ?_, ?_⟩
    · rw [hv]
    · rw [hv]
    · exact List.length_pos.2 hne

/-- Claim C7, amended: in every `customer_analysis` entry, `avg_order_value`
is the *unrounded* total spent divided by `purchase_count`, rounded to two
decimals (`total_spent` itself is reported rounded, so recomputing the
average from the reported `total_spent` can differ in the last digit). -/
theorem C7_avg_order_value_amended (ts : List Transaction) (e : CustomerStats)
    (he : e ∈ customer_analysis ts) :
    e.total_spent = round2 (custSpent ts e.customer) ∧
    e.purchase_count = custCount ts e.customer ∧
    0 < e.purchase_count ∧
    e.avg_order_value =
      round2 (custSpent ts e.customer / (custCount ts e.customer : ℚ)) := by
  unfold customer_analysis at he
  have he2 := (List.Perm.mem_iff (List.perm_insertionSort custSortRel _)).1 he
  rcases List.mem_map.1 he2 with ⟨g, hg, rfl⟩
  obtain ⟨h1, h2, h3⟩ := custGroups_entry ts g hg
  dsimp only
  rw [← h2] at h3
  refine ⟨by rw [h1], h2, h3, ?_⟩
  rw [if_pos h3, h1, h2]

/-- Counterexample to claim C7 as stated: two purchases of `0.0149` by one
customer give reported `total_spent = 0.03` and `avg_order_value = 0.01`,
but the quotient of the reported values to two decimals is
`round2(0.03 / 2) = round2(0.015) = 0.02` (also `0.02` under half-even
rounding, since 2 is even). -/
theorem C7_counterexample :
    (customer_analysis c7txs).map
        (fun e => (e.total_spent, e.purchase_count, e.avg_order_value)) =
      [((3 : ℚ)/100, 2, (1 : ℚ)/100)] ∧
    round2 ((3 : ℚ)/100 / 2) = (2 : ℚ)/100 ∧
    ((1 : ℚ)/100) ≠ ((2 : ℚ)/100) := by
  refine ⟨?_, ?_, by norm_num⟩
  · norm_num +decide [customer_analysis, custGroups, custTriples, c7txs, mkTxR, custContrib,
      custKey, pnameKey, coerceNum, pyStrip, pyStripLeft, upsertCust, addDistinct,
      List.insertionSort, List.orderedInsert, custSortRel, round2, round_eq, valNum]
  · norm_num [round2, round_eq]

/-- Witness for C7 (amended) at a one-purchase input. -/
theorem C7_witness :
    ∃ e ∈ customer_analysis c7wit,
      e.total_spent = round2 (custSpent c7wit e.customer) ∧
      e.avg_order_value =
        round2 (custSpent c7wit e.customer / (custCount c7wit e.customer : ℚ)) := by
  have h : (⟨"C9".toList, 20, 1, 20, ["X".toList]⟩ : CustomerStats) ∈
      customer_analysis c7wit := by
    norm_num +decide [customer_analysis, custGroups, custTriples, c7wit, mkTx, custContrib,
      custKey, pnameKey, coerceNum, pyStrip, pyStripLeft, upsertCust, addDistinct,
      List.insertionSort, List.orderedInsert, custSortRel, round2, round_eq, valNum]
  have hc := C7_avg_order_value_amended c7wit _ h
  exact ⟨_, h, hc.1, hc.2.2.2⟩

theorem upsertRegion_sum (acc : List (PyStr × ℚ × ℕ)) (x : PyStr × ℚ) :
    ((upsertRegion acc x).map (fun g => g.2.1)).sum = (acc.map (fun g => g.2.1)).sum + x.2 := by
  induction acc with
  | nil => simp [upsertRegion]
  | cons e rest ih =>
    rcases e with ⟨k, s, c⟩
    by_cases h : k = x.1
    · simp only [upsertRegion, if_pos h, List.map_cons, List.sum_cons]
      ring
    · simp only [upsertRegion, if_neg h, List.map_cons, List.sum_cons, ih]
      ring

theorem upsertRegion_cnt (acc : List (PyStr × ℚ × ℕ)) (x : PyStr × ℚ) :
    ((upsertRegion acc x).map (fun g => g.2.2)).sum = (acc.map (fun g => g.2.2)).sum + 1 := by
  induction acc with
  | nil => simp [upsertRegion]
  | cons e rest ih =>
    rcases e with ⟨k, s, c⟩
    by_cases h : k = x.1
    · simp only [upsertRegion, if_pos h, List.map_cons, List.sum_cons]
      omega
    · simp only [upsertRegion, if_neg h, List.map_cons, List.sum_cons, ih]
      omega

theorem foldl_upsertRegion_sum (pairs : List (PyStr × ℚ)) :
    ((pairs.foldl upsertRegion []).map (fun g => g.2.1)).sum = (pairs.map (fun p => p.2)).sum := by
  induction pairs using List.reverseRecOn with
  | nil => simp
  | append_singleton xs x ih =>
    rw [List.foldl_append, List.foldl_cons, List.foldl_nil, upsertRegion_sum, ih]
    simp

theorem foldl_upsertRegion_cnt (pairs : List (PyStr × ℚ)) :
    ((pairs.foldl upsertRegion []).map (fun g => g.2.2)).sum = pairs.length := by
  induction pairs using List.reverseRecOn with
  | nil => simp
  | append_singleton xs x ih =>
    rw [List.foldl_append, List.foldl_cons, List.foldl_nil, upsertRegion_cnt, ih]
    simp

theorem filterMap_length_all_some {α β : Type} (f : α → Option β) (l : List α)
    (h : ∀ a ∈ l, (f a).isSome = true) : (l.filterMap f).length = l.length := by
  induction l with
  | nil => rfl
  | cons a rest ih =>
    have ha := h a (List.mem_cons_self _ _)
    rcases hfa : f a with _ | b
    · rw [hfa] at ha; cases ha
    · rw [List.filterMap_cons_some hfa, List.length_cons, List.length_cons,
        ih (fun x hx => h x (List.mem_cons_of_mem _ hx))]

theorem regionContrib_isSome {t : Transaction} (h : validRegionRecord t) :
    (regionContrib t).isSome = true := by
  rcases h with ⟨h1, h2, h3⟩
  unfold regionContrib
  rw [if_neg h1]
  rcases hq : coerceNum t.Quantity (.VInt 0) with _ | q
  · rw [hq] at h2; cases h2
  · rcases hp : coerceNum t.UnitPrice (.VRat 0) with _ | p
    · rw [hp] at h3; cases h3
    · simp

theorem abs_round2_sub (q : ℚ) : |round2 q - q| ≤ 1/200 := by
  have h := abs_sub_round (q * 100)
  have heq : round2 q - q = -((q * 100 - ((round (q * 100) : ℤ) : ℚ)) / 100) := by
    unfold round2
    ring
  rw [heq, abs_neg, abs_div, abs_of_pos (show (0:ℚ) < 100 by norm_num)]
  rw [div_le_div_iff₀ (by norm_num) (by norm_num : (0:ℚ) < 200)]
  nlinarith [h]

theorem sum_round2_near (xs : List ℚ) :
    |(xs.map round2).sum - xs.sum| ≤ (xs.length : ℚ) / 200 := by
  induction xs with
  | nil => simp
  | cons a l ih =>
    rw [List.map_cons, List.sum_cons, List.sum_cons, List.length_cons]
    have h1 : round2 a + (l.map round2).sum - (a + l.sum) =
        (round2 a - a) + ((l.map round2).sum - l.sum) := by ring
    rw [h1]
    refine le_trans (abs_add _ _) ?_
    have h2 := abs_round2_sub a
    push_cast
    linarith [ih]

theorem sum_map_div_mul (l : List (PyStr × ℚ × ℕ)) (t c : ℚ) :
    (l.map (fun g => g.2.1 / t * c)).sum = (l.map (fun g => g.2.1)).sum / t * c := by
  induction l with
  | nil => simp
  | cons e rest ih =>
    rw [List.map_cons, List.sum_cons, List.map_cons, List.sum_cons, ih]
    ring

theorem region_wise_sales_eq (ts : List Transaction) :
    region_wise_sales ts = List.insertionSort regionSortRel
      ((regionGroups ts).map (fun g =>
        { region := g.1, total_sales := round2 g.2.1, transaction_count := g.2.2,
          percentage := if 0 < regionTotalAll ts then round2 (g.2.1 / regionTotalAll ts * 100)
            else 0 : RegionStats })) := rfl

/-- Claim C5, amended: for valid input (non-blank string region, numeric
`Quantity`/`UnitPrice` on every record) the per-group `transaction_count`
values sum to `len(T)` and the result is ordered by `total_sales`
descending; the per-group percentages each round to within `1/200`, so
their sum lies within `(number of regions)/200` of 100 whenever the overall
total is positive — in particular within the claimed `±0.1` when there are
at most 20 regions, but *not* in general (see the counterexample) — and
every percentage is 0 when the overall total is 0. -/
theorem C5_region_wise_sales_amended (ts : List Transaction)
    (hv : ∀ t ∈ ts, validRegionRecord t) :
    ((region_wise_sales ts).map (fun e => e.transaction_count)).sum = ts.length ∧
    (region_wise_sales ts).Sorted regionSortRel ∧
    (0 < regionTotalAll ts →
      |((region_wise_sales ts).map (fun e => e.percentage)).sum - 100| ≤
        ((region_wise_sales ts).length : ℚ) / 200) ∧
    ((region_wise_sales ts).length ≤ 20 → 0 < regionTotalAll ts →
      |((region_wise_sales ts).map (fun e => e.percentage)).sum - 100| ≤ 1/10) ∧
    (regionTotalAll ts = 0 → ∀ e ∈ region_wise_sales ts, e.percentage = 0) := by
  have hperm : (region_wise_sales ts).Perm ((regionGroups ts).map (fun g =>
      { region := g.1, total_sales := round2 g.2.1, transaction_count := g.2.2,
        percentage := if 0 < regionTotalAll ts then round2 (g.2.1 / regionTotalAll ts * 100)
          else 0 : RegionStats })) := by
    rw [region_wise_sales_eq]
    exact List.perm_insertionSort _ _
  have hgroups_eq : regionGroups ts = (regionPairs ts).foldl upsertRegion [] := rfl
  have hcnt : ((region_wise_sales ts).map (fun e => e.transaction_count)).sum = ts.length := by
    rw [(hperm.map (fun e => e.transaction_count)).sum_eq, List.map_map]
    have h2 : ((fun e : RegionStats => e.transaction_count) ∘ (fun g : PyStr × ℚ × ℕ =>
        { region := g.1, total_sales := round2 g.2.1, transaction_count := g.2.2,
          percentage := if 0 < regionTotalAll ts then round2 (g.2.1 / regionTotalAll ts * 100)
            else 0 : RegionStats })) = fun g : PyStr × ℚ × ℕ => g.2.2 := by
      funext g
      rfl
    rw [h2, hgroups_eq, foldl_upsertRegion_cnt]
    exact filterMap_length_all_some _ _ (fun t ht => regionContrib_isSome (hv t ht))
  have hsorted : (region_wise_sales ts).Sorted regionSortRel := by
    rw [region_wise_sales_eq]
    exact List.sorted_insertionSort _ _
  have hlen : (region_wise_sales ts).length = (regionGroups ts).length := by
    rw [hperm.length_eq, List.length_map]
  have hpct : 0 < regionTotalAll ts →
      |((region_wise_sales ts).map (fun e => e.percentage)).sum - 100| ≤
        ((region_wise_sales ts).length : ℚ) / 200 := by
    intro htot
    rw [(hperm.map (fun e => e.percentage)).sum_eq, List.map_map]
    have h2 : ((fun e : RegionStats => e.percentage) ∘ (fun g : PyStr × ℚ × ℕ =>
        { region := g.1, total_sales := round2 g.2.1, transaction_count := g.2.2,
          percentage := if 0 < regionTotalAll ts then round2 (g.2.1 / regionTotalAll ts * 100)
            else 0 : RegionStats })) =
        fun g : PyStr × ℚ × ℕ => round2 (g.2.1 / regionTotalAll ts * 100) := by
      funext g
      show (if 0 < regionTotalAll ts then round2 (g.2.1 / regionTotalAll ts * 100) else 0) = _
      rw [if_pos htot]
    rw [h2]
    have hb := sum_round2_near ((regionGroups ts).map (fun g => g.2.1 / regionTotalAll ts * 100))
    rw [List.map_map] at hb
    have hcomp : (round2 ∘ fun g : PyStr × ℚ × ℕ => g.2.1 / regionTotalAll ts * 100) =
        fun g : PyStr × ℚ × ℕ => round2 (g.2.1 / regionTotalAll ts * 100) := by
      funext g
      rfl
    rw [hcomp, List.length_map] at hb
    have hxs : ((regionGroups ts).map (fun g => g.2.1 / regionTotalAll ts * 100)).sum = 100 := by
      rw [sum_map_div_mul]
      have hsum : ((regionGroups ts).map (fun g => g.2.1)).sum = regionTotalAll ts := by
        rw [hgroups_eq, foldl_upsertRegion_sum]
        rfl
      rw [hsum, div_self (ne_of_gt htot)]
      norm_num
    rw [hxs] at hb
    rw [hlen]
    exact hb
  refine ⟨hcnt, hsorted, hpct, ?_, ?_⟩
  · intro hk htot
    refine le_trans (hpct htot) ?_
    have hq : ((region_wise_sales ts).length : ℚ) ≤ 20 := by exact_mod_cast hk
    linarith
  · intro h0 e he
    have he2 := hperm.mem_iff.1 he
    rcases List.mem_map.1 he2 with ⟨g, hg, rfl⟩
    show (if 0 < regionTotalAll ts then round2 (g.2.1 / regionTotalAll ts * 100) else 0) = 0
    rw [if_neg (by rw [h0]; exact lt_irrefl 0)]

/-- Counterexample to claim C5 as stated: 25 valid transactions in 25
distinct regions whose rounded percentages are 4.01 (24 times) and 3.88,
summing to 100.12 — outside the claimed `±0.1`.  (Python's float rounding
agrees: each raw percentage is 4.0051 resp. 3.8776, comfortably away from
any rounding tie.) -/
theorem C5_counterexample :
    (∀ t ∈ c5txs, validRegionRecord t) ∧ c5txs ≠ [] ∧
    ((region_wise_sales c5txs).map (fun e => e.percentage)).sum = 2503/25 ∧
    ¬ |((region_wise_sales c5txs).map (fun e => e.percentage)).sum - 100| ≤ 1/10 := by
  have hsum : ((region_wise_sales c5txs).map (fun e => e.percentage)).sum = 2503/25 := by
    rw [region_wise_sales_eq,
      ((List.perm_insertionSort regionSortRel _).map (fun e => e.percentage)).sum_eq]
    norm_num +decide [regionGroups, regionPairs, regionContrib, regionKey, coerceNum,
      c5txs, mkC5tx, mkTx, pyStrip, pyStripLeft, upsertRegion, valNum, regionTotalAll,
      round2, round_eq, List.filterMap_cons, List.filterMap_nil]
  refine ⟨by decide, by decide, hsum, ?_⟩
  rw [hsum]
  rw [show (2503 : ℚ)/25 - 100 = 3/25 by norm_num]
  rw [abs_of_pos (show (0 : ℚ) < 3/25 by norm_num)]
  norm_num

/-- Witness for C5 (amended) at a two-region valid input. -/
theorem C5_witness :
    ((region_wise_sales c5wit).map (fun e => e.transaction_count)).sum = c5wit.length ∧
    (region_wise_sales c5wit).Sorted regionSortRel ∧
    (0 < regionTotalAll c5wit →
      |((region_wise_sales c5wit).map (fun e => e.percentage)).sum - 100| ≤
        ((region_wise_sales c5wit).length : ℚ) / 200) ∧
    ((region_wise_sales c5wit).length ≤ 20 → 0 < regionTotalAll c5wit →
      |((region_wise_sales c5wit).map (fun e => e.percentage)).sum - 100| ≤ 1/10) ∧
    (regionTotalAll c5wit = 0 → ∀ e ∈ region_wise_sales c5wit, e.percentage = 0) :=
  C5_region_wise_sales_amended c5wit (by decide)
